import Mathlib

/-!
Verification of the VIP anti-censorship transport against its
natural-language specification.  Each Rust module relevant to the checked
claims is shallowly embedded: pure functions become Lean functions,
stateful objects become explicit state records with step functions, machine
integers become `Nat` with explicit truncation (`% 2^w`) where the source
truncates, wall-clock instants become `Nat` millisecond timestamps passed
explicitly, and `f32`/`f64` arithmetic that the claims reason about exactly
is modelled over `ℚ` (and `ℝ` where a square root occurs).
-/

namespace Vip

/-! ### Circuit breaker (src/circuit_breaker.rs)

`state: AtomicBool` is `stateFlag` (false = Closed, true = Open),
`failure_count: AtomicU64` is a `Nat`, `last_failure: Option<Instant>` is an
optional millisecond timestamp.  Every operation that reads the clock takes
the current time `now` explicitly; `Instant::elapsed` is `now - t`. -/

inductive CircuitState where
  | Closed
  | Open
  | HalfOpen
deriving DecidableEq, Repr

structure CircuitBreaker where
  stateFlag : Bool
  failureCount : Nat
  lastFailure : Option Nat
  failureThreshold : Nat
  timeoutMs : Nat
  maxLatencyMs : Nat
deriving DecidableEq, Repr

def CircuitBreaker.new (timeoutMs failureThreshold maxLatencyMs : Nat) : CircuitBreaker :=
  { stateFlag := false
    failureCount := 0
    lastFailure := none
    failureThreshold := failureThreshold
    timeoutMs := timeoutMs
    maxLatencyMs := maxLatencyMs }

def CircuitBreaker.recordFailure (cb : CircuitBreaker) (now : Nat) : CircuitBreaker :=
  let failures := cb.failureCount + 1
  { cb with
    failureCount := failures
    lastFailure := some now
    stateFlag := if cb.failureThreshold ≤ failures then true else cb.stateFlag }

def CircuitBreaker.recordSuccess (cb : CircuitBreaker) : CircuitBreaker :=
  { cb with failureCount := 0, stateFlag := false }

/-- `should_trip` mutates state only via the conditional `record_failure`;
the returned boolean is `failures >= threshold` on the updated state. -/
def CircuitBreaker.shouldTripState (cb : CircuitBreaker) (latencyMs now : Nat) : CircuitBreaker :=
  if cb.maxLatencyMs < latencyMs then cb.recordFailure now else cb

def CircuitBreaker.shouldTrip (cb : CircuitBreaker) (latencyMs now : Nat) :
    Bool × CircuitBreaker :=
  let cb2 := cb.shouldTripState latencyMs now
  (decide (cb2.failureThreshold ≤ cb2.failureCount), cb2)

def CircuitBreaker.isOpen (cb : CircuitBreaker) (now : Nat) : Bool :=
  if !cb.stateFlag then false
  else
    match cb.lastFailure with
    | some t => if cb.timeoutMs < now - t then false else true
    | none => true

def CircuitBreaker.getState (cb : CircuitBreaker) (now : Nat) : CircuitState :=
  if cb.isOpen now then .Open
  else if 0 < cb.failureCount then .HalfOpen
  else .Closed

/-- The operations a caller can perform on the breaker between
observations of `get_state`. -/
inductive CBOp where
  | shouldTrip (latencyMs : Nat)
  | recordFailure
  | recordSuccess
deriving DecidableEq, Repr

def CBOp.apply : CBOp → CircuitBreaker → Nat → CircuitBreaker
  | .shouldTrip l, cb, now => cb.shouldTripState l now
  | .recordFailure, cb, now => cb.recordFailure now
  | .recordSuccess, cb, _ => cb.recordSuccess

/-- Breaker states reachable from `new`, at a given current time; time is
monotone, and the state may also be observed later without being stepped. -/
inductive CBReachable : CircuitBreaker → Nat → Prop where
  | init (t f m now : Nat) : CBReachable (CircuitBreaker.new t f m) now
  | step (op : CBOp) {cb : CircuitBreaker} {now now2 : Nat} :
      CBReachable cb now → now ≤ now2 → CBReachable (op.apply cb now2) now2
  | wait {cb : CircuitBreaker} {now now2 : Nat} :
      CBReachable cb now → now ≤ now2 → CBReachable cb now2

lemma cb_flag_invariant {cb : CircuitBreaker} {now : Nat} (h : CBReachable cb now)
    (hf : cb.stateFlag = true) :
    cb.failureThreshold ≤ cb.failureCount ∧ 1 ≤ cb.failureCount := by
  induction h with
  | init t f m now => simp [CircuitBreaker.new] at hf
  | step op h hle ih =>
    cases op with
    | recordSuccess =>
      simp [CBOp.apply, CircuitBreaker.recordSuccess] at hf
    | recordFailure =>
      simp only [CBOp.apply, CircuitBreaker.recordFailure] at hf ⊢
      split at hf
      · next hth => exact ⟨hth, Nat.le_add_left 1 _⟩
      · next hth =>
        rcases ih hf with ⟨h1, h2⟩
        exact ⟨Nat.le_succ_of_le h1, Nat.le_succ_of_le h2⟩
    | shouldTrip l =>
      simp only [CBOp.apply, CircuitBreaker.shouldTripState] at hf ⊢
      split at hf
      · next hlt =>
        rw [if_pos hlt]
        simp only [CircuitBreaker.recordFailure] at hf ⊢
        split at hf
        · next hth => exact ⟨hth, Nat.le_add_left 1 _⟩
        · next hth =>
          rcases ih hf with ⟨h1, h2⟩
          exact ⟨Nat.le_succ_of_le h1, Nat.le_succ_of_le h2⟩
      · next hlt =>
        rw [if_neg hlt]
        exact ih hf
  | wait h hle ih => exact ih hf

/-- After `record_failure`, a breaker whose open flag was already set is
observed `Open` at the time of that failure. -/
lemma cb_recordFailure_getState_open (cb : CircuitBreaker) (now2 : Nat)
    (hflag : cb.stateFlag = true) :
    (cb.recordFailure now2).getState now2 = .Open := by
  simp [CircuitBreaker.recordFailure, CircuitBreaker.getState, CircuitBreaker.isOpen,
    Nat.sub_self, hflag]

lemma cb_open_flag {cb : CircuitBreaker} {now : Nat}
    (h : cb.getState now = .Open) : cb.stateFlag = true := by
  by_contra hne
  have hflag : cb.stateFlag = false := by
    cases hcb : cb.stateFlag
    · rfl
    · exact absurd hcb hne
  simp [CircuitBreaker.getState, CircuitBreaker.isOpen, hflag] at h
  split at h <;> simp_all

/-- Claim C1 (counterexample): with threshold 1, a single `record_failure`
puts the breaker in `Open`; one `record_success` then takes the observable
state directly from `Open` to `Closed`, with no intervening `HalfOpen`. -/
theorem c1_open_to_closed_counterexample :
    CBReachable (CBOp.recordFailure.apply (CircuitBreaker.new 1000 1 300) 0) 0 ∧
    (CBOp.recordFailure.apply (CircuitBreaker.new 1000 1 300) 0).getState 0 = .Open ∧
    (CBOp.recordSuccess.apply
      (CBOp.recordFailure.apply (CircuitBreaker.new 1000 1 300) 0) 0).getState 0 = .Closed := by
  refine ⟨?_, by decide, by decide⟩
  exact CBReachable.step .recordFailure (.init 1000 1 300 0) (Nat.le_refl 0)

/-- Claim C1 (amended): the breaker observably enters `Open` only while the
failure count has reached the threshold, and no operation other than
`record_success` can take the observable state from `Open` to `Closed` in
one step; `record_success`, however, forces `Closed` directly even from
`Open`. -/
theorem c1_open_transitions :
    (∀ (cb : CircuitBreaker) (now : Nat), CBReachable cb now →
      cb.getState now = .Open → cb.failureThreshold ≤ cb.failureCount) ∧
    (∀ (op : CBOp) (cb : CircuitBreaker) (now now2 : Nat), CBReachable cb now →
      op ≠ .recordSuccess → now ≤ now2 → cb.getState now = .Open →
      (op.apply cb now2).getState now2 ≠ .Closed) := by
  constructor
  · intro cb now hreach hopen
    exact (cb_flag_invariant hreach (cb_open_flag hopen)).1
  · intro op cb now now2 hreach hop hle hopen
    have hflag : cb.stateFlag = true := cb_open_flag hopen
    have hcount : 1 ≤ cb.failureCount := (cb_flag_invariant hreach hflag).2
    cases op with
    | recordSuccess => exact absurd rfl hop
    | recordFailure =>
      simp only [CBOp.apply]
      rw [cb_recordFailure_getState_open cb now2 hflag]
      decide
    | shouldTrip l =>
      simp only [CBOp.apply, CircuitBreaker.shouldTripState]
      split
      · rw [cb_recordFailure_getState_open cb now2 hflag]
        decide
      · have h0 : 0 < cb.failureCount := hcount
        simp only [CircuitBreaker.getState, if_pos h0]
        split <;> decide

/-- Witness for `c1_open_transitions` at a concrete reachable `Open` state. -/
theorem c1_open_transitions_witness :
    ((CBOp.recordFailure.apply (CircuitBreaker.new 1000 1 300) 0).getState 0 = .Open ∧
      (CBOp.recordFailure.apply (CircuitBreaker.new 1000 1 300) 0).failureThreshold ≤
        (CBOp.recordFailure.apply (CircuitBreaker.new 1000 1 300) 0).failureCount) ∧
    (CBOp.recordFailure ≠ CBOp.recordSuccess ∧
      (CBOp.recordFailure.apply
        (CBOp.recordFailure.apply (CircuitBreaker.new 1000 1 300) 0) 0).getState 0 ≠ .Closed) := by
  have hreach : CBReachable (CBOp.recordFailure.apply (CircuitBreaker.new 1000 1 300) 0) 0 :=
    CBReachable.step .recordFailure (.init 1000 1 300 0) (Nat.le_refl 0)
  refine ⟨⟨by decide, c1_open_transitions.1 _ 0 hreach (by decide)⟩, ⟨by decide, ?_⟩⟩
  exact c1_open_transitions.2 .recordFailure _ 0 0 hreach (by decide) (Nat.le_refl 0) (by decide)

/-! ### Hysteria2 Salamander obfuscation (src/hysteria2.rs)

Bytes are `Nat` (values < 256 in practice; XOR needs no bound).
`apply_obfs` indexes `key[i % key.len()]`; when the password is empty and
there is at least one data byte, `i % 0` panics in Rust — the model returns
`none` for that case and `some` otherwise. -/

inductive ObfsType where
  | None
  | Salamander
deriving DecidableEq, Repr

def applyObfsGo (key : List Nat) : Nat → List Nat → List Nat
  | _, [] => []
  | i, b :: rest => (b ^^^ key.getD (i % key.length) 0) :: applyObfsGo key (i + 1) rest

def applyObfs (t : ObfsType) (key : List Nat) (data : List Nat) : Option (List Nat) :=
  match t with
  | .None => some data
  | .Salamander =>
    if key = [] then (if data = [] then some [] else none)
    else some (applyObfsGo key 0 data)

def removeObfs (t : ObfsType) (key : List Nat) (data : List Nat) : Option (List Nat) :=
  applyObfs t key data

lemma applyObfsGo_involutive (key : List Nat) :
    ∀ (i : Nat) (data : List Nat), applyObfsGo key i (applyObfsGo key i data) = data := by
  intro i data
  induction data generalizing i with
  | nil => rfl
  | cons b rest ih =>
    simp only [applyObfsGo, Nat.xor_cancel_right, ih]

lemma applyObfsGo_length (key : List Nat) :
    ∀ (i : Nat) (data : List Nat), (applyObfsGo key i data).length = data.length := by
  intro i data
  induction data generalizing i with
  | nil => rfl
  | cons b rest ih => simp [applyObfsGo, ih]

/-- Claim C9 (counterexample): with Salamander obfuscation configured and an
empty obfuscation password, `apply_obfs` on a single byte panics
(`i % key.len()` divides by zero), so the round trip does not return the
input. -/
theorem c9_obfs_counterexample :
    ¬ ((applyObfs .Salamander [] [0]).bind (removeObfs .Salamander []) = some [0]) := by
  decide

/-- Claim C9 (amended): for every configuration whose obfuscation password
is nonempty (or whose obfuscation type is `None`) and every byte string,
`remove_obfs (apply_obfs d) = d`: the XOR-with-password transform is
self-inverse. -/
theorem c9_obfs_roundtrip (t : ObfsType) (key data : List Nat)
    (h : t = .None ∨ key ≠ []) :
    (applyObfs t key data).bind (removeObfs t key) = some data := by
  cases t with
  | None => rfl
  | Salamander =>
    have hkey : key ≠ [] := by
      rcases h with h | h
      · exact absurd h (by decide)
      · exact h
    simp only [applyObfs, removeObfs, if_neg hkey, Option.some_bind,
      applyObfsGo_involutive]

/-- Witness for `c9_obfs_roundtrip` at a concrete key and payload. -/
theorem c9_obfs_roundtrip_witness :
    (ObfsType.Salamander = .None ∨ ([1, 2] : List Nat) ≠ []) ∧
    (applyObfs .Salamander [1, 2] [5, 6, 7]).bind (removeObfs .Salamander [1, 2])
      = some [5, 6, 7] :=
  ⟨Or.inr (by decide), c9_obfs_roundtrip .Salamander [1, 2] [5, 6, 7] (Or.inr (by decide))⟩

/-! ### Engine stop and Tunnel State (src/engine.rs, src/types.rs)

`IpAddr` is modelled as an opaque `String`; timestamps as `Nat`.  The f64
and f32 statistics fields are modelled over `ℚ`. -/

inductive ProtocolType where
  | ShadowTls
  | Reality
  | Tuic
  | Hysteria2
  | Masque
  | Xhttp
  | Trojan
  | Vless
  | Warp
  | Cascade (outer inner : ProtocolType)
deriving DecidableEq, Repr

inductive CdnType where
  | Cloudflare
  | Gcore
  | Fastly
  | ArvanCloud
  | Direct
deriving DecidableEq, Repr

structure TrafficStats where
  rx_bytes : Nat
  tx_bytes : Nat
  connections : Nat
  avg_latency_ms : ℚ
  errors : Nat
  packet_loss_pct : ℚ
deriving DecidableEq, Repr

structure TunnelState where
  active : Bool
  current_ip : Option String
  current_port : Nat
  protocol : ProtocolType
  cdn : CdnType
  active_layers : Nat
  stats : TrafficStats
  started_at : Option Nat
  switch_count : Nat
  last_error : Option String
deriving DecidableEq, Repr

/-- `NetworkGhostEngine::stop` mutates the tunnel state under the write
lock: it clears `active` and records the reason; the broadcast of
`TunnelStopped` does not touch the state. -/
def engineStop (s : TunnelState) (reason : String) : TunnelState :=
  { s with active := false, last_error := some reason }

/-- Claim C10: `stop(reason)` sets `active = false` and
`last_error = Some(reason)` and leaves every other Tunnel State field
(current ip, current port, protocol, cdn, active layer count, stats,
start timestamp, switch count) unchanged. -/
theorem c10_stop_frame (s : TunnelState) (reason : String) :
    (engineStop s reason).active = false ∧
    (engineStop s reason).last_error = some reason ∧
    (engineStop s reason).current_ip = s.current_ip ∧
    (engineStop s reason).current_port = s.current_port ∧
    (engineStop s reason).protocol = s.protocol ∧
    (engineStop s reason).cdn = s.cdn ∧
    (engineStop s reason).active_layers = s.active_layers ∧
    (engineStop s reason).stats = s.stats ∧
    (engineStop s reason).started_at = s.started_at ∧
    (engineStop s reason).switch_count = s.switch_count := by
  refine ⟨rfl, rfl, rfl, rfl, rfl, rfl, rfl, rfl, rfl, rfl⟩

/-! ### MASQUE capsule protocol (src/masque.rs)

Bytes are `Nat` (< 256).  `encode_varint` mirrors the RFC 9000 class
encoding with the source's shift/mask arithmetic (`>> k` is `/ 2^k`,
`as u8` is `% 256`, `|` is `Nat.lor`).  `MasqueClient::recv` copies
`buf[skip..n]` to the front with `skip = 2.min(n)` and returns
`n - skip` bytes: on a received capsule wire image it yields
`wire.drop (min 2 wire.length)`. -/

def encodeVarint (v : Nat) : List Nat :=
  if v < 64 then [v]
  else if v < 16384 then
    let n := v ||| 0x4000
    [n / 2 ^ 8 % 256, n % 256]
  else if v < 1073741824 then
    let n := v ||| 0x80000000
    [n / 2 ^ 24 % 256, n / 2 ^ 16 % 256, n / 2 ^ 8 % 256, n % 256]
  else
    let n := v ||| 0xC000000000000000
    [n / 2 ^ 56 % 256, n / 2 ^ 48 % 256, n / 2 ^ 40 % 256, n / 2 ^ 32 % 256,
     n / 2 ^ 24 % 256, n / 2 ^ 16 % 256, n / 2 ^ 8 % 256, n % 256]

def CAPSULE_TYPE_DATAGRAM : Nat := 0x00

def MAX_UDP_PAYLOAD : Nat := 1200

structure Capsule where
  capsuleType : Nat
  data : List Nat
deriving DecidableEq, Repr

def Capsule.datagram (payload : List Nat) : Capsule :=
  { capsuleType := CAPSULE_TYPE_DATAGRAM, data := payload }

def Capsule.encode (c : Capsule) : List Nat :=
  encodeVarint c.capsuleType ++ encodeVarint c.data.length ++ c.data

/-- The receive path of `MasqueClient::recv`: skip `min 2 n` leading bytes
of the received datagram and return the rest. -/
def masqueRecvDecode (wire : List Nat) : List Nat :=
  wire.drop (min 2 wire.length)

/-- `MasqueClient::send_capsule` splits the payload into 1200-byte chunks
and sends one encoded datagram capsule per chunk. -/
def masqueChunks (payload : List Nat) : List (List Nat) :=
  if payload = [] then []
  else payload.take MAX_UDP_PAYLOAD :: masqueChunks (payload.drop MAX_UDP_PAYLOAD)
termination_by payload.length
decreasing_by
  simp only [List.length_drop]
  have : payload.length ≠ 0 := by
    simpa [List.length_eq_zero] using (by assumption : ¬ payload = [])
  simp [MAX_UDP_PAYLOAD]
  omega

def sendCapsuleWires (payload : List Nat) : List (List Nat) :=
  (masqueChunks payload).map fun c => (Capsule.datagram c).encode

/-- The receive path does invert the encoding when the payload is shorter
than 64 bytes (the length varint then occupies a single byte, so the
header is exactly 2 bytes). -/
lemma masqueRecv_roundtrip_short (b : List Nat) (h : b.length < 64) :
    masqueRecvDecode (Capsule.datagram b).encode = b := by
  simp only [Capsule.datagram, Capsule.encode, CAPSULE_TYPE_DATAGRAM, encodeVarint,
    if_pos h, masqueRecvDecode]
  simp

/-- Claim C2 (evaluation at the failing input): for a 64-byte payload the
capsule header is 3 bytes (1 type byte, 2 length-varint bytes), but the
receive path strips only 2, so the decoded payload is the stray byte
`0x40` prepended to the original instead of the original. -/
theorem c2_capsule_recv_mismatch :
    masqueRecvDecode (Capsule.datagram (List.replicate 64 7)).encode
      = 64 :: List.replicate 64 7 ∧
    64 :: List.replicate 64 7 ≠ List.replicate 64 7 := by
  constructor
  · rfl
  · decide

/-! ### SMUX stream multiplexer frames (src/smux.rs)

The 8-byte header is serialized little-endian (`u16::to_le_bytes`,
`u32::to_le_bytes`); bytes are `Nat` (< 256).  `chunk.len() as u16` in
`send_data` is the truncation `% 2^16`. -/

def SMUX_VERSION : Nat := 2

def CMD_PSH : Nat := 2

def MAX_FRAME_SIZE : Nat := 65536

structure SmuxHeader where
  version : Nat
  cmd : Nat
  length : Nat
  sid : Nat
deriving DecidableEq, Repr

def SmuxHeader.new (cmd sid length : Nat) : SmuxHeader :=
  { version := SMUX_VERSION, cmd := cmd, length := length, sid := sid }

def SmuxHeader.toBytes (h : SmuxHeader) : List Nat :=
  [h.version % 256, h.cmd % 256,
   h.length % 256, h.length / 2 ^ 8 % 256,
   h.sid % 256, h.sid / 2 ^ 8 % 256, h.sid / 2 ^ 16 % 256, h.sid / 2 ^ 24 % 256]

def SmuxHeader.fromBytes (b : List Nat) : SmuxHeader :=
  { version := b.getD 0 0
    cmd := b.getD 1 0
    length := b.getD 2 0 + 2 ^ 8 * b.getD 3 0
    sid := b.getD 4 0 + 2 ^ 8 * b.getD 5 0 + 2 ^ 16 * b.getD 6 0 + 2 ^ 24 * b.getD 7 0 }

/-- `send_data` walks the payload in windows of `MAX_FRAME_SIZE` bytes. -/
def smuxChunks (data : List Nat) : List (List Nat) :=
  if data = [] then []
  else data.take MAX_FRAME_SIZE :: smuxChunks (data.drop MAX_FRAME_SIZE)
termination_by data.length
decreasing_by
  simp only [List.length_drop]
  have : data.length ≠ 0 := by
    simpa [List.length_eq_zero] using (by assumption : ¬ data = [])
  simp [MAX_FRAME_SIZE]
  omega

/-- The PSH frames `send_data(sid, data)` writes: one per chunk, the
header's length field being `chunk.len() as u16`. -/
def smuxSendDataFrames (sid : Nat) (data : List Nat) : List (SmuxHeader × List Nat) :=
  (smuxChunks data).map fun c => (SmuxHeader.new CMD_PSH sid (c.length % 2 ^ 16), c)

/-- `write_frame` output: 8 header bytes then the payload. -/
def smuxEncodeFrame (h : SmuxHeader) (payload : List Nat) : List Nat :=
  h.toBytes ++ payload

/-- `read_frame`: parse the first 8 bytes, then read `header.length`
payload bytes. -/
def smuxDecodeFrame (wire : List Nat) : SmuxHeader × List Nat :=
  let h := SmuxHeader.fromBytes (wire.take 8)
  (h, (wire.drop 8).take h.length)

lemma smuxHeader_roundtrip (h : SmuxHeader) (hv : h.version < 2 ^ 8) (hc : h.cmd < 2 ^ 8)
    (hl : h.length < 2 ^ 16) (hs : h.sid < 2 ^ 32) :
    SmuxHeader.fromBytes h.toBytes = h := by
  cases h with
  | mk version cmd length sid =>
    simp only [SmuxHeader.toBytes, SmuxHeader.fromBytes, List.getD] at *
    congr 1 <;> simp <;> omega

lemma smuxChunks_single (data : List Nat) (hne : data ≠ [])
    (hlen : data.length ≤ MAX_FRAME_SIZE) : smuxChunks data = [data] := by
  rw [smuxChunks, if_neg hne, List.take_of_length_le hlen,
    List.drop_eq_nil_of_le hlen, smuxChunks]
  simp

/-- A frame whose header is in range round-trips through
`write_frame`/`read_frame`. -/
lemma smuxFrame_roundtrip (h : SmuxHeader) (payload : List Nat)
    (hv : h.version < 2 ^ 8) (hc : h.cmd < 2 ^ 8) (hs : h.sid < 2 ^ 32)
    (hl : h.length = payload.length) (hfit : payload.length < 2 ^ 16) :
    smuxDecodeFrame (smuxEncodeFrame h payload) = (h, payload) := by
  have h8 : h.toBytes.length = 8 := by simp [SmuxHeader.toBytes]
  have hround : SmuxHeader.fromBytes h.toBytes = h :=
    smuxHeader_roundtrip h hv hc (hl ▸ hfit) hs
  simp only [smuxDecodeFrame, smuxEncodeFrame]
  rw [List.take_append_of_le_length (by omega), List.take_of_length_le (by omega),
    hround, List.drop_append_of_le_length (by omega), List.drop_eq_nil_of_le (by omega),
    List.nil_append, hl, List.take_of_length_le (Nat.le_refl _)]

/-- Claim C3 (evaluation at the failing input): `send_data` on a payload of
exactly 65,536 bytes (the documented per-PSH maximum) produces a single PSH
frame whose length field is `65536 as u16 = 0`, so the read path decodes an
empty payload instead of the original 65,536 bytes. -/
theorem c3_psh_length_truncation :
    smuxSendDataFrames 1 (List.replicate 65536 0)
      = [(SmuxHeader.new CMD_PSH 1 0, List.replicate 65536 0)] ∧
    (smuxDecodeFrame
        (smuxEncodeFrame (SmuxHeader.new CMD_PSH 1 0) (List.replicate 65536 0))).2
      = [] ∧
    List.replicate 65536 (0 : Nat) ≠ [] := by
  have hne : List.replicate 65536 (0 : Nat) ≠ [] := by
    intro h
    have hl := congrArg List.length h
    rw [List.length_replicate] at hl
    exact absurd hl (by decide)
  have hlen : (List.replicate 65536 (0 : Nat)).length ≤ MAX_FRAME_SIZE := by
    rw [List.length_replicate]
    decide
  refine ⟨?_, rfl, hne⟩
  rw [smuxSendDataFrames, smuxChunks_single _ hne hlen, List.map_cons, List.map_nil,
    List.length_replicate]
  norm_num

/-! ### TLS scanner (src/scanner.rs)

Network effects are abstracted into a per-probe outcome: whether the TCP
connect succeeded and the measured latency.  `test_tls` is the source's
stub that always returns `Ok(true)` (so `tls_valid` is always true).
`quality_score` (f32) is modelled over `ℚ`; timestamps and the fingerprint
string are omitted. -/

structure ScannerConfig where
  max_ips : Nat
  connect_timeout_ms : Nat
  max_latency_ms : Nat
  concurrency : Nat
deriving DecidableEq, Repr

def ScannerConfig.default : ScannerConfig :=
  { max_ips := 100, connect_timeout_ms := 3000, max_latency_ms := 300, concurrency := 10 }

structure ScanResult where
  ip : String
  port : Nat
  latency_ms : Nat
  tls_valid : Bool
  is_clean : Bool
  supports_fragmentation : Bool
  cdn_type : CdnType
  quality_score : ℚ
deriving DecidableEq, Repr

/-- Outcome of the network probe for one `(ip, port)` target. -/
structure ProbeOutcome where
  connected : Bool
  latencyMs : Nat
deriving DecidableEq, Repr

/-- `TlsScanner::test_tls` is a stub: it drops the stream and returns
`Ok(true)`. -/
def testTls : Bool := true

def testSingleIp (cfg : ScannerConfig) (ip : String) (port : Nat) (cdn : CdnType)
    (pr : ProbeOutcome) : Option ScanResult :=
  if !pr.connected then none
  else
    let tcpLatency := pr.latencyMs
    let tlsValid := testTls
    if !tlsValid then none
    else
      let qualityScore : ℚ :=
        if tcpLatency < 100 then 1 else if tcpLatency < 200 then 0.8 else 0.5
      some
        { ip := ip
          port := port
          latency_ms := tcpLatency
          tls_valid := tlsValid
          is_clean := tlsValid && decide (tcpLatency < cfg.max_latency_ms)
          supports_fragmentation := true
          cdn_type := cdn
          quality_score := qualityScore }

/-- `scan_all_cdns`: probe each `(ip, port)` pair, keep the results whose
`is_clean` flag is set, and sort by descending quality score. -/
def scanAllCdns (cfg : ScannerConfig) (cdn : CdnType)
    (targets : List (String × Nat × ProbeOutcome)) : List ScanResult :=
  let results :=
    (targets.filterMap fun t => testSingleIp cfg t.1 t.2.1 cdn t.2.2).filter
      fun r => r.is_clean
  results.mergeSort fun a b => decide (b.quality_score ≤ a.quality_score)

/-- Claim C4 (counterexample): with the default configuration
(`max_latency_ms = 300`) a probe that connects with latency exactly 300 ms
and a successful TLS probe yields `is_clean = false`, although the claim's
"probe succeeded and latency ≤ cap" holds. -/
theorem c4_is_clean_counterexample :
    ((testSingleIp ScannerConfig.default "ip" 443 .Cloudflare
        { connected := true, latencyMs := 300 }).map ScanResult.tls_valid = some true) ∧
    ((testSingleIp ScannerConfig.default "ip" 443 .Cloudflare
        { connected := true, latencyMs := 300 }).map ScanResult.latency_ms = some 300) ∧
    300 ≤ ScannerConfig.default.max_latency_ms ∧
    ((testSingleIp ScannerConfig.default "ip" 443 .Cloudflare
        { connected := true, latencyMs := 300 }).map ScanResult.is_clean = some false) := by
  refine ⟨rfl, rfl, by decide, rfl⟩

/-- Claim C4 (amended): `is_clean` is true iff the TLS probe succeeded and
the latency is strictly below the configured cap; consequently every
endpoint in the candidate list has `latency_ms < max_latency_ms` (hence
`≤`) and `quality_score ∈ [0, 1]`. -/
theorem c4_is_clean_amended :
    (∀ (cfg : ScannerConfig) (ip : String) (port : Nat) (cdn : CdnType)
      (pr : ProbeOutcome) (r : ScanResult),
      testSingleIp cfg ip port cdn pr = some r →
      (r.is_clean = true ↔ r.tls_valid = true ∧ r.latency_ms < cfg.max_latency_ms)) ∧
    (∀ (cfg : ScannerConfig) (cdn : CdnType)
      (targets : List (String × Nat × ProbeOutcome)) (r : ScanResult),
      r ∈ scanAllCdns cfg cdn targets →
      r.latency_ms ≤ cfg.max_latency_ms ∧ 0 ≤ r.quality_score ∧ r.quality_score ≤ 1) := by
  have hsingle : ∀ (cfg : ScannerConfig) (ip : String) (port : Nat) (cdn : CdnType)
      (pr : ProbeOutcome) (r : ScanResult),
      testSingleIp cfg ip port cdn pr = some r →
      r.tls_valid = true ∧ r.latency_ms = pr.latencyMs ∧
      r.is_clean = decide (pr.latencyMs < cfg.max_latency_ms) ∧
      (0 ≤ r.quality_score ∧ r.quality_score ≤ 1) := by
    intro cfg ip port cdn pr r h
    by_cases hc : pr.connected = true
    · simp only [testSingleIp, testTls, hc, Bool.not_true, Bool.false_eq_true, if_false,
        Option.some.injEq] at h
      subst h
      refine ⟨rfl, rfl, rfl, ?_⟩
      dsimp only
      split
      · norm_num
      · split <;> norm_num
    · rw [Bool.not_eq_true] at hc
      simp [testSingleIp, hc] at h
  constructor
  · intro cfg ip port cdn pr r h
    rcases hsingle cfg ip port cdn pr r h with ⟨htls, hlat, hclean, _⟩
    rw [hclean, htls, hlat]
    simp
  · intro cfg cdn targets r hmem
    simp only [scanAllCdns, List.mem_mergeSort, List.mem_filter,
      List.mem_filterMap] at hmem
    rcases hmem with ⟨⟨t, ht, hsome⟩, hclean⟩
    rcases hsingle cfg t.1 t.2.1 cdn t.2.2 r hsome with ⟨_, hlat, hcleaneq, hq⟩
    refine ⟨?_, hq⟩
    rw [hcleaneq] at hclean
    rw [hlat]
    have : t.2.2.latencyMs < cfg.max_latency_ms := of_decide_eq_true hclean
    omega

/-- Witness for `c4_is_clean_amended` at a concrete fast clean probe. -/
theorem c4_is_clean_amended_witness :
    let r : ScanResult :=
      { ip := "ip", port := 443, latency_ms := 50, tls_valid := true, is_clean := true,
        supports_fragmentation := true, cdn_type := .Cloudflare, quality_score := 1 }
    testSingleIp ScannerConfig.default "ip" 443 .Cloudflare
        { connected := true, latencyMs := 50 } = some r ∧
    (r.is_clean = true ↔
      r.tls_valid = true ∧ r.latency_ms < ScannerConfig.default.max_latency_ms) ∧
    r ∈ scanAllCdns ScannerConfig.default .Cloudflare
        [("ip", 443, { connected := true, latencyMs := 50 })] ∧
    r.latency_ms ≤ ScannerConfig.default.max_latency_ms ∧
    0 ≤ r.quality_score ∧ r.quality_score ≤ 1 := by
  intro r
  have hsome : testSingleIp ScannerConfig.default "ip" 443 .Cloudflare
      { connected := true, latencyMs := 50 } = some r := by decide
  have hmem : r ∈ scanAllCdns ScannerConfig.default .Cloudflare
      [("ip", 443, { connected := true, latencyMs := 50 })] := by
    simp only [scanAllCdns]
    exact List.mem_mergeSort.mpr (by decide)
  exact ⟨hsome,
    c4_is_clean_amended.1 ScannerConfig.default "ip" 443 .Cloudflare
      { connected := true, latencyMs := 50 } r hsome,
    hmem,
    c4_is_clean_amended.2 ScannerConfig.default .Cloudflare
      [("ip", 443, { connected := true, latencyMs := 50 })] r hmem⟩

/-! ### Anti-AI DPI smart fragmentation (src/anti_ai_dpi.rs)

The ChaCha20 RNG is abstracted as an arbitrary stream `rand : Nat → Nat`
of draws, one per loop iteration; `rng.gen_range(lo..hi)` (with `lo < hi`)
is modelled as `lo + rand k % (hi - lo)`, which ranges over exactly
`[lo, hi)` as `rand k` does over `Nat`. -/

def genRange (lo hi r : Nat) : Nat := lo + r % (hi - lo)

/-- One loop iteration's chunk size: `max_chunk = min (remaining, 140)`,
then `gen_range(20..max_chunk)` when `max_chunk > 20`, else `max_chunk`. -/
def smartChunkSize (remaining r : Nat) : Nat :=
  if 20 < min remaining 140 then genRange 20 (min remaining 140) r
  else min remaining 140

lemma smartChunkSize_bounds (len r : Nat) (h : 0 < len) :
    1 ≤ smartChunkSize len r ∧ smartChunkSize len r ≤ len ∧
    smartChunkSize len r ≤ 140 ∧
    (20 ≤ smartChunkSize len r ∧ smartChunkSize len r < 140 ∨
      smartChunkSize len r ≤ 20) := by
  unfold smartChunkSize
  split
  · next h20 =>
    have hr : r % (min len 140 - 20) < min len 140 - 20 := Nat.mod_lt _ (by omega)
    simp only [genRange]
    omega
  · next h20 => omega

def smartFragment (rand : Nat → Nat) (k : Nat) (data : List Nat) : List (List Nat) :=
  if data = [] then []
  else
    data.take (smartChunkSize data.length (rand k)) ::
      smartFragment rand (k + 1) (data.drop (smartChunkSize data.length (rand k)))
termination_by data.length
decreasing_by
  rw [List.length_drop]
  have hne : ¬ data = [] := by assumption
  have hpos : 0 < data.length := List.length_pos.mpr hne
  have h1 := (smartChunkSize_bounds data.length (rand k) hpos).1
  omega

lemma smartFragment_spec (rand : Nat → Nat) :
    ∀ (n k : Nat) (data : List Nat), data.length ≤ n →
      (smartFragment rand k data).flatten = data ∧
      ∀ f ∈ smartFragment rand k data,
        0 < f.length ∧ f.length ≤ 140 ∧ f.length ≤ data.length ∧
        (20 ≤ f.length ∧ f.length < 140 ∨ f.length ≤ 20) := by
  intro n
  induction n with
  | zero =>
    intro k data hlen
    have hdnil : data = [] := List.length_eq_zero.mp (Nat.le_zero.mp hlen)
    subst hdnil
    rw [smartFragment.eq_def]
    simp
  | succ n ih =>
    intro k data hlen
    by_cases hnil : data = []
    · subst hnil
      rw [smartFragment.eq_def]
      simp
    · have hdata_pos : 0 < data.length := List.length_pos.mpr hnil
      rw [smartFragment.eq_def, if_neg hnil]
      obtain ⟨hc1, hclen, hc140, hcint⟩ :=
        smartChunkSize_bounds data.length (rand k) hdata_pos
      have hrest := ih (k + 1) (data.drop (smartChunkSize data.length (rand k)))
        (by rw [List.length_drop]; omega)
      obtain ⟨hflat, hmem⟩ := hrest
      have htakelen : (data.take (smartChunkSize data.length (rand k))).length
          = smartChunkSize data.length (rand k) := by
        rw [List.length_take]
        omega
      constructor
      · rw [List.flatten_cons, hflat, List.take_append_drop]
      · intro f hf
        rcases List.mem_cons.mp hf with hf | hf
        · subst hf
          rw [htakelen]
          exact ⟨hc1, hc140, hclen, hcint⟩
        · obtain ⟨h1, h2, h3, h4⟩ := hmem f hf
          refine ⟨h1, h2, ?_, h4⟩
          rw [List.length_drop] at h3
          omega

/-- Claim C8: `smart_fragment(b)` terminates (it is a total function of the
input and the random stream) and produces fragments that concatenate back
to `b`; every fragment is nonempty with length at most 140, never exceeding
the length of the input remaining at its position (in particular at most
`|b|`), and each fragment's size either lies in `[20, 140)` or is capped at
`≤ 20` by the remaining input. -/
theorem c8_smart_fragment (rand : Nat → Nat) (k : Nat) (b : List Nat) :
    (smartFragment rand k b).flatten = b ∧
    ∀ f ∈ smartFragment rand k b,
      0 < f.length ∧ f.length ≤ 140 ∧ f.length ≤ b.length ∧
      (20 ≤ f.length ∧ f.length < 140 ∨ f.length ≤ 20) :=
  smartFragment_spec rand b.length k b (Nat.le_refl _)


/-! ### Detection-risk analyzer (src/anti_ai_dpi.rs, `analyze_detection_risk`)

Packet sizes are naturals; the f64 mean and sample variance are computed
exactly over `ℚ`; `f64::sqrt` makes the confidence a real number, so the
analysis record is modelled with a real confidence.  The human-readable
`detection_reason` string is not modelled. -/

inductive AntiAiMode where
  | Normal
  | Aggressive
  | Stealth
  | Adaptive
  | Ghost
deriving DecidableEq, Repr

def avgSize (history : List Nat) : ℚ :=
  if history = [] then 0
  else (history.map fun s => (s : ℚ)).sum / (history.length : ℚ)

/-- Sample variance over the recorded packet sizes (`/ (n - 1)`); `1000.0`
when fewer than two samples exist. -/
def sampleVariance (history : List Nat) : ℚ :=
  if 1 < history.length then
    (history.map fun s => ((s : ℚ) - avgSize history) * ((s : ℚ) - avgSize history)).sum
      / ((history.length - 1 : Nat) : ℚ)
  else 1000

structure DetectionAnalysis where
  is_detected : Bool
  confidence : ℝ
  recommended_mode : Option AntiAiMode

def DetectionAnalysis.default : DetectionAnalysis :=
  { is_detected := false, confidence := 0, recommended_mode := none }

noncomputable def analyzeDetectionRisk (packetsProcessed : Nat) (history : List Nat)
    (mode : AntiAiMode) : DetectionAnalysis :=
  if packetsProcessed < 100 then DetectionAnalysis.default
  else
    let variance := sampleVariance history
    let isDetected := decide (variance < 100) && decide (mode ≠ .Ghost)
    let confidence : ℝ :=
      if isDetected then min (max (100 - Real.sqrt (variance : ℝ)) 0) 100 / 100
      else 0.1
    { is_detected := isDetected
      confidence := confidence
      recommended_mode := if isDetected then some .Ghost else none }

/-- Dividing by 100 after clamping to `[0, 100]` equals clamping to
`[0, 1]` after dividing by 100. -/
lemma clamp_div_hundred (x : ℝ) :
    min (max x 0) 100 / 100 = max 0 (min 1 (x / 100)) := by
  rcases le_total x 0 with hx | hx
  · have h2 : x / 100 ≤ 0 := div_nonpos_iff.mpr (Or.inr ⟨hx, by norm_num⟩)
    rw [max_eq_right hx, min_eq_left (by norm_num : (0 : ℝ) ≤ 100),
      min_eq_right (h2.trans (by norm_num)), max_eq_left h2]
    norm_num
  · rcases le_total x 100 with hx2 | hx2
    · rw [max_eq_left hx, min_eq_left hx2,
        min_eq_right ((div_le_one (by norm_num)).mpr hx2),
        max_eq_right (div_nonneg hx (by norm_num))]
    · rw [max_eq_left hx, min_eq_right hx2,
        min_eq_left ((one_le_div (by norm_num)).mpr hx2),
        max_eq_right (by norm_num : (0 : ℝ) ≤ 1)]
      norm_num

/-- Claim C5: the analyzer returns the not-detected default whenever fewer
than 100 packets have been processed; otherwise, when the sample variance
of the recorded packet sizes is below 100 and the mode is not Ghost, it
reports detected with confidence `clamp((100 − √variance)/100, 0, 1)` and
recommends Ghost mode. -/
theorem c5_detection_analysis :
    (∀ (p : Nat) (h : List Nat) (m : AntiAiMode), p < 100 →
      analyzeDetectionRisk p h m = DetectionAnalysis.default) ∧
    (∀ (p : Nat) (h : List Nat) (m : AntiAiMode), 100 ≤ p →
      sampleVariance h < 100 → m ≠ .Ghost →
      (analyzeDetectionRisk p h m).is_detected = true ∧
      (analyzeDetectionRisk p h m).confidence
        = max 0 (min 1 ((100 - Real.sqrt ((sampleVariance h : ℚ) : ℝ)) / 100)) ∧
      (analyzeDetectionRisk p h m).recommended_mode = some .Ghost) := by
  constructor
  · intro p h m hp
    simp [analyzeDetectionRisk, hp]
  · intro p h m hp hv hm
    have hnp : ¬ p < 100 := by omega
    have hdet : (decide (sampleVariance h < 100) && decide (m ≠ .Ghost)) = true := by
      simp [hv, hm]
    simp only [analyzeDetectionRisk, if_neg hnp, hdet]
    refine ⟨trivial, ?_, by simp⟩
    rw [if_pos trivial]
    exact clamp_div_hundred (100 - Real.sqrt ((sampleVariance h : ℚ) : ℝ))

/-- Witness for `c5_detection_analysis`: 3 packets give the default
analysis; 100 packets with two equal 100-byte samples (variance 0) give a
detection recommending Ghost. -/
theorem c5_detection_analysis_witness :
    ((3 : Nat) < 100 ∧ analyzeDetectionRisk 3 [] .Normal = DetectionAnalysis.default) ∧
    ((100 : Nat) ≤ 100 ∧ sampleVariance [100, 100] < 100 ∧
      AntiAiMode.Normal ≠ .Ghost ∧
      (analyzeDetectionRisk 100 [100, 100] .Normal).is_detected = true ∧
      (analyzeDetectionRisk 100 [100, 100] .Normal).confidence
        = max 0 (min 1 ((100 - Real.sqrt ((sampleVariance [100, 100] : ℚ) : ℝ)) / 100)) ∧
      (analyzeDetectionRisk 100 [100, 100] .Normal).recommended_mode = some .Ghost) := by
  have hv : sampleVariance [100, 100] < 100 := by
    norm_num [sampleVariance, avgSize, List.cons_ne_nil]
  have h1 := c5_detection_analysis.1 3 [] .Normal (by decide)
  have h2 := c5_detection_analysis.2 100 [100, 100] .Normal (by decide) hv (by decide)
  exact ⟨⟨by decide, h1⟩, by decide, hv, by decide, h2.1, h2.2.1, h2.2.2⟩

/-! ### Port hopper (src/port_hopper.rs)

The pool is the `Vec<PortState>` behind the `RwLock`; `report_success` and
`report_error` mutate the first entry matching the port (`iter_mut().find`).
f64/f32 latency and score values are modelled over `ℚ`; the `last_used`
wall-clock timestamp is omitted. -/

def HTTPS_PORTS : List Nat := [443, 2053, 2083, 2087, 2096, 8443]

structure PortState where
  port : Nat
  active : Bool
  avg_latency_ms : ℚ
  success_count : Nat
  error_count : Nat
  score : ℚ
deriving DecidableEq, Repr

def PortState.default : PortState :=
  { port := 443, active := true, avg_latency_ms := 0, success_count := 0,
    error_count := 0, score := 1 }

/-- The freshly constructed pool of `PortHopper::new`. -/
def portHopperNew : List PortState :=
  HTTPS_PORTS.map fun p =>
    { PortState.default with
      port := p
      active := true
      score := (if p = 443 then 1 else 8 / 10) }

def calculateScore (p : PortState) : ℚ :=
  if p.success_count = 0 ∧ p.error_count = 0 then 1 / 2
  else
    ((p.success_count : ℚ) / ((p.success_count + p.error_count : Nat) : ℚ)) * (6 / 10) +
      (if p.avg_latency_ms < 100 then (1 : ℚ)
       else if p.avg_latency_ms < 200 then 8 / 10
       else if p.avg_latency_ms < 300 then 6 / 10
       else 4 / 10) * (4 / 10)

/-- Mutate the first entry with the given port number, as
`iter_mut().find(...)` does. -/
def updateFirst (f : PortState → PortState) (port : Nat) : List PortState → List PortState
  | [] => []
  | p :: ps => if p.port = port then f p :: ps else p :: updateFirst f port ps

def reportSuccessUpdate (latencyMs : Nat) (p : PortState) : PortState :=
  let p1 := { p with
    success_count := p.success_count + 1
    avg_latency_ms := (p.avg_latency_ms + (latencyMs : ℚ)) / 2 }
  { p1 with score := calculateScore p1 }

def reportSuccess (ports : List PortState) (port latencyMs : Nat) : List PortState :=
  updateFirst (reportSuccessUpdate latencyMs) port ports

def reportErrorUpdate (p : PortState) : PortState :=
  let p1 := { p with error_count := p.error_count + 1 }
  let p2 := { p1 with score := calculateScore p1 }
  if 10 < p2.error_count ∧ p2.success_count < p2.error_count / 2 then
    { p2 with active := false }
  else p2

def reportError (ports : List PortState) (port : Nat) : List PortState :=
  updateFirst reportErrorUpdate port ports

/-- Pool states reachable from construction via success/error reports. -/
inductive PoolReachable : List PortState → Prop where
  | init : PoolReachable portHopperNew
  | success {ps : List PortState} (port latencyMs : Nat) :
      PoolReachable ps → PoolReachable (reportSuccess ps port latencyMs)
  | error {ps : List PortState} (port : Nat) :
      PoolReachable ps → PoolReachable (reportError ps port)

lemma calculateScore_bounds (p : PortState) :
    0 ≤ calculateScore p ∧ calculateScore p ≤ 1 := by
  by_cases h0 : p.success_count = 0 ∧ p.error_count = 0
  · unfold calculateScore
    rw [if_pos h0]
    norm_num
  · unfold calculateScore
    rw [if_neg h0]
    have hsum : p.success_count + p.error_count ≠ 0 := by
      intro h
      exact h0 ⟨by omega, by omega⟩
    have hpos : (0 : ℚ) < ((p.success_count + p.error_count : Nat) : ℚ) := by
      exact_mod_cast Nat.pos_of_ne_zero hsum
    have hr0 : (0 : ℚ)
        ≤ (p.success_count : ℚ) / ((p.success_count + p.error_count : Nat) : ℚ) :=
      div_nonneg (by positivity) hpos.le
    have hr1 : (p.success_count : ℚ) / ((p.success_count + p.error_count : Nat) : ℚ) ≤ 1 := by
      rw [div_le_one hpos]
      exact_mod_cast Nat.le_add_right p.success_count p.error_count
    have hL : (0 : ℚ) ≤ (if p.avg_latency_ms < 100 then (1 : ℚ)
          else if p.avg_latency_ms < 200 then 8 / 10
          else if p.avg_latency_ms < 300 then 6 / 10 else 4 / 10) ∧
        (if p.avg_latency_ms < 100 then (1 : ℚ)
          else if p.avg_latency_ms < 200 then 8 / 10
          else if p.avg_latency_ms < 300 then 6 / 10 else 4 / 10) ≤ 1 := by
      split_ifs <;> norm_num
    constructor
    · linarith [hL.1]
    · linarith [hL.2]

lemma reportSuccessUpdate_score (latencyMs : Nat) (p : PortState) :
    0 ≤ (reportSuccessUpdate latencyMs p).score ∧
    (reportSuccessUpdate latencyMs p).score ≤ 1 :=
  calculateScore_bounds _

lemma reportErrorUpdate_score (p : PortState) :
    0 ≤ (reportErrorUpdate p).score ∧ (reportErrorUpdate p).score ≤ 1 := by
  simp only [reportErrorUpdate]
  split
  · exact calculateScore_bounds _
  · exact calculateScore_bounds _

lemma mem_updateFirst {f : PortState → PortState} {port : Nat} :
    ∀ {ps : List PortState} {q : PortState}, q ∈ updateFirst f port ps →
      q ∈ ps ∨ ∃ p0 ∈ ps, q = f p0 := by
  intro ps
  induction ps with
  | nil =>
    intro q hq
    simp [updateFirst] at hq
  | cons p ps ih =>
    intro q hq
    simp only [updateFirst] at hq
    split at hq
    · rcases List.mem_cons.mp hq with h | h
      · exact Or.inr ⟨p, List.mem_cons_self p ps, h⟩
      · exact Or.inl (List.mem_cons_of_mem p h)
    · rcases List.mem_cons.mp hq with h | h
      · exact Or.inl (h ▸ List.mem_cons_self p ps)
      · rcases ih h with h2 | ⟨p0, hp0, hq2⟩
        · exact Or.inl (List.mem_cons_of_mem p h2)
        · exact Or.inr ⟨p0, List.mem_cons_of_mem p hp0, hq2⟩

lemma pool_score_invariant {ps : List PortState} (h : PoolReachable ps) :
    ∀ p ∈ ps, 0 ≤ p.score ∧ p.score ≤ 1 := by
  induction h with
  | init =>
    intro p hp
    simp only [portHopperNew, HTTPS_PORTS, List.map_cons, List.map_nil, List.mem_cons,
      List.not_mem_nil, or_false] at hp
    rcases hp with rfl | rfl | rfl | rfl | rfl | rfl <;>
      exact ⟨by norm_num [PortState.default], by norm_num [PortState.default]⟩
  | success port latencyMs hre ih =>
    intro q hq
    rcases mem_updateFirst hq with hmem | ⟨p0, _, rfl⟩
    · exact ih q hmem
    · exact reportSuccessUpdate_score latencyMs p0
  | error port hre ih =>
    intro q hq
    rcases mem_updateFirst hq with hmem | ⟨p0, _, rfl⟩
    · exact ih q hmem
    · exact reportErrorUpdate_score p0

/-- Claim C6 (counterexample): the freshly constructed pool's first entry
(port 443) has zero success and error counts but score 1, not 0.5. -/
theorem c6_fresh_pool_counterexample :
    PoolReachable portHopperNew ∧
    (portHopperNew.headD PortState.default).success_count = 0 ∧
    (portHopperNew.headD PortState.default).error_count = 0 ∧
    (portHopperNew.headD PortState.default).score ≠ 1 / 2 :=
  ⟨.init, by decide, by decide, by
    rw [show (portHopperNew.headD PortState.default).score = 1 from rfl]
    norm_num⟩

/-- Claim C6 (amended): every port state in every reachable pool has
`score ∈ [0, 1]`, and `calculate_score` returns 0.5 for zero counts — but
the freshly constructed pool assigns scores 1.0 (port 443) and 0.8 (other
ports) directly, without calling `calculate_score`, so its zero-count
entries do not have score 0.5. -/
theorem c6_score_bounds :
    (∀ ps : List PortState, PoolReachable ps → ∀ p ∈ ps, 0 ≤ p.score ∧ p.score ≤ 1) ∧
    (∀ p : PortState, p.success_count = 0 → p.error_count = 0 →
      calculateScore p = 1 / 2) := by
  constructor
  · intro ps h
    exact pool_score_invariant h
  · intro p hs he
    unfold calculateScore
    rw [if_pos ⟨hs, he⟩]

/-- Witness for `c6_score_bounds` at the fresh pool's first entry and the
default port state. -/
theorem c6_score_bounds_witness :
    (PoolReachable portHopperNew ∧
      (portHopperNew.headD PortState.default) ∈ portHopperNew ∧
      0 ≤ (portHopperNew.headD PortState.default).score ∧
      (portHopperNew.headD PortState.default).score ≤ 1) ∧
    (PortState.default.success_count = 0 ∧ PortState.default.error_count = 0 ∧
      calculateScore PortState.default = 1 / 2) := by
  have hmem : (portHopperNew.headD PortState.default) ∈ portHopperNew := by decide
  obtain ⟨h1, h2⟩ := c6_score_bounds.1 portHopperNew .init _ hmem
  exact ⟨⟨.init, hmem, h1, h2⟩, by decide, by decide,
    c6_score_bounds.2 PortState.default (by decide) (by decide)⟩

/-! ### Matryoshka nested dialer (src/matryoshka.rs)

The TCP connection is abstracted to the boolean `tcpConnected`
(`tcp_stream.is_some()`); the per-layer network I/O of `apply_layer` is an
oracle `net : Nat → Except String Unit` giving the i-th applied layer's
handshake outcome (the `Tcp` arm of `apply_layer` does nothing and always
succeeds). -/

inductive LayerType where
  | Tcp
  | ShadowTls (sni : String)
  | Reality (uuid publicKey : String)
  | Smux
deriving DecidableEq, Repr

structure MatryoshkaDialer where
  layers : List LayerType
  tcpConnected : Bool
  active : Bool
deriving DecidableEq, Repr

def MatryoshkaDialer.new : MatryoshkaDialer :=
  { layers := [], tcpConnected := false, active := false }

def MAX_LAYERS : Nat := 20

def MatryoshkaDialer.wrapWithShadowTls (d : MatryoshkaDialer) (sni : String) :
    MatryoshkaDialer :=
  { d with layers := d.layers ++ [.ShadowTls sni] }

def MatryoshkaDialer.wrapWithReality (d : MatryoshkaDialer) (uuid publicKey : String) :
    MatryoshkaDialer :=
  { d with layers := d.layers ++ [.Reality uuid publicKey] }

def MatryoshkaDialer.enableSmux (d : MatryoshkaDialer) : MatryoshkaDialer :=
  { d with layers := d.layers ++ [.Smux] }

def applyLayerResult (net : Nat → Except String Unit) (i : Nat) :
    LayerType → Except String Unit
  | .Tcp => .ok ()
  | _ => net i

def applyLayers (net : Nat → Except String Unit) : Nat → List LayerType → Except String Unit
  | _, [] => .ok ()
  | i, l :: ls =>
    match applyLayerResult net i l with
    | .ok _ => applyLayers net (i + 1) ls
    | .error e => .error e

/-- `MatryoshkaDialer::start`: truncate the layer list to `MAX_LAYERS`,
connect TCP, apply the layers in order with `?`-propagation, and set
`active` only when every layer succeeded. -/
def MatryoshkaDialer.start (d : MatryoshkaDialer) (connectOk : Bool)
    (net : Nat → Except String Unit) : MatryoshkaDialer × Except String Unit :=
  let d1 : MatryoshkaDialer := { d with layers := d.layers.take MAX_LAYERS }
  if !connectOk then (d1, .error "TCP connection failed")
  else
    let d2 : MatryoshkaDialer := { d1 with tcpConnected := true }
    match applyLayers net 0 d2.layers with
    | .error e => (d2, .error e)
    | .ok _ => ({ d2 with active := true }, .ok ())

lemma applyLayers_error {net : Nat → Except String Unit} :
    ∀ (ls : List LayerType) (i : Nat) (e : String), applyLayers net i ls = .error e →
      ∃ j l, ls.get? j = some l ∧ applyLayerResult net (i + j) l = .error e := by
  intro ls
  induction ls with
  | nil =>
    intro i e h
    simp [applyLayers] at h
  | cons l ls ih =>
    intro i e h
    cases hr : applyLayerResult net i l with
    | ok u =>
      simp only [applyLayers, hr] at h
      obtain ⟨j, l2, hg, he⟩ := ih (i + 1) e h
      refine ⟨j + 1, l2, by simpa using hg, ?_⟩
      rw [show i + (j + 1) = i + 1 + j by omega]
      exact he
    | error e2 =>
      simp only [applyLayers, hr, Except.error.injEq] at h
      exact ⟨0, l, rfl, by rw [Nat.add_zero, hr, h]⟩

/-- Claim C7 (counterexample): a dialer with one SMUX layer whose handshake
I/O fails leaves the freshly connected TCP transport stored and open
(`tcp_stream` is still `Some`), and returns the layer's raw error. -/
theorem c7_failure_leaves_transport_counterexample :
    ((MatryoshkaDialer.new.enableSmux).start true
        (fun _ => .error "SMUX frame write failed")).1.tcpConnected = true ∧
    ((MatryoshkaDialer.new.enableSmux).start true
        (fun _ => .error "SMUX frame write failed")).2
      = .error "SMUX frame write failed" :=
  ⟨rfl, rfl⟩

/-- Claim C7 (amended): when TCP connect succeeded and some layer's
handshake fails during `start`, the dialer returns that layer's own error
unchanged (no indication of which layer is added), leaves the underlying
transport connection stored and open (`tcp_stream` remains `Some`), and
leaves `active` as it was (it is only set on full success). -/
theorem c7_failure_amended (d : MatryoshkaDialer) (net : Nat → Except String Unit)
    (e : String) (h : (d.start true net).2 = .error e) :
    (d.start true net).1.tcpConnected = true ∧
    (d.start true net).1.active = d.active ∧
    ∃ i l, (d.layers.take MAX_LAYERS).get? i = some l ∧
      applyLayerResult net i l = .error e := by
  cases happly : applyLayers net 0 (d.layers.take MAX_LAYERS) with
  | ok u =>
    exfalso
    simp only [MatryoshkaDialer.start, Bool.not_true, Bool.false_eq_true, if_false,
      happly] at h
    exact Except.noConfusion h
  | error e2 =>
    have hres : (d.start true net).1.tcpConnected = true ∧
        (d.start true net).1.active = d.active ∧ e2 = e := by
      simp only [MatryoshkaDialer.start, Bool.not_true, Bool.false_eq_true, if_false,
        happly] at h ⊢
      simp only [Except.error.injEq] at h
      exact ⟨trivial, trivial, h⟩
    obtain ⟨j, l, hg, he⟩ := applyLayers_error (d.layers.take MAX_LAYERS) 0 e2 happly
    rw [Nat.zero_add] at he
    exact ⟨hres.1, hres.2.1, j, l, hg, by rw [he, hres.2.2]⟩

/-- Witness for `c7_failure_amended` at a failing single-SMUX dialer. -/
theorem c7_failure_amended_witness :
    ((MatryoshkaDialer.new.enableSmux).start true (fun _ => .error "boom")).2
      = .error "boom" ∧
    ((MatryoshkaDialer.new.enableSmux).start true (fun _ => .error "boom")).1.tcpConnected
      = true ∧
    ((MatryoshkaDialer.new.enableSmux).start true (fun _ => .error "boom")).1.active
      = MatryoshkaDialer.new.enableSmux.active := by
  have h := c7_failure_amended (MatryoshkaDialer.new.enableSmux)
    (fun _ => .error "boom") "boom" rfl
  exact ⟨rfl, h.1, h.2.1⟩

end Vip
